import Mathlib

/-!
Verification of the cached remote-data client (`src/assets/js/api.js`,
class `GitHubAPI`) and the troubleshooting filter/search logic
(`Pages.renderTroubleshooting` and its inner `matches`/`renderItems`).

Modelling conventions for the shallow embedding:
* JSON values are the inductive `JsVal`; JS truthiness of a JSON value is
  `JsVal.truthy` (NaN does not arise since numbers are modelled as `Int`).
* `Date.now()` is passed in as an explicit `now : Nat`; the up-to-three
  reads of the clock inside a single `fetchJson` invocation are modelled
  as returning the same value (single-threaded code, no awaits between
  the reads and the write).
* The in-memory cache `this.cache` is a map `String → Option CacheEntry`;
  `localStorage` is a map `String → Option DurableRaw`, keyed by the full
  namespaced key `lsKey url`.  A stored string that `JSON.parse` rejects,
  or that does not parse to an object carrying usable `data`/`timestamp`
  fields, is modelled as `DurableRaw.malformed`: in the source such a
  value either makes `readLocalCache` return `null` (parse throw /
  non-object) or is an object whose `timestamp` comparison is `NaN`
  (never fresh) and whose `data` is `undefined` (falsy, so never used by
  the stale fallback) — behaviourally identical to returning no entry.
* The outcome of `fetch` + `response.ok` + `response.json()` is a single
  oracle `net : Option JsVal` (`none` = transport error, non-2xx status,
  or JSON parse failure: all three `throw` into the same `catch`), and
  the outcome of `localStorage.setItem` is the oracle `storeOk : Bool`
  (`false` = quota/blocked throw).
* `fetchJson` returns its value, the updated state, and a flag
  `netCalled` recording whether a network request was issued.
* For the no-throw claim the same control flow is re-expressed as
  `fetchJsonE` in the `Except` monad, with every throwing primitive
  explicit, and proved to always return `.ok` of the total function's
  result.
-/

namespace RevGuide

/-- JSON values (JS numbers modelled as `Int`; no NaN in the data model). -/
inductive JsVal where
  | null
  | bool (b : Bool)
  | num (n : Int)
  | str (s : String)
  | arr (xs : List JsVal)
  | obj (fields : List (String × JsVal))

/-- JS truthiness of a JSON value (`null`, `false`, `0`, `""` are falsy;
arrays and objects are always truthy). -/
def JsVal.truthy : JsVal → Bool
  | .null => false
  | .bool b => b
  | .num n => n != 0
  | .str s => s != ""
  | .arr _ => true
  | .obj _ => true

/-- A cache entry `{ data, timestamp }` as held in `this.cache` and (after
parsing) in `localStorage`. -/
structure CacheEntry where
  data : JsVal
  timestamp : Nat

/-- What a `localStorage` slot holds: either a well-formed serialized
`{data, timestamp}` payload, or a string that does not yield a usable
entry (parse failure / non-object / missing fields). -/
inductive DurableRaw where
  | malformed
  | entry (data : JsVal) (timestamp : Nat)

/-- Mutable state of the `GitHubAPI` client: the in-memory cache map
`this.cache` and the browser `localStorage`. -/
structure APIState where
  cache : String → Option CacheEntry
  store : String → Option DurableRaw

/-- Result of one `fetchJson` invocation: the returned value (`none` =
JS `null`), the state after the call, and whether a network request was
issued. -/
structure FetchResult where
  ret : Option JsVal
  st : APIState
  netCalled : Bool

/-- Pointwise update of a string-keyed map. -/
def updateMap {α : Type} (m : String → Option α) (k : String) (v : α) :
    String → Option α :=
  fun j => if j = k then some v else m j

/-- `this.cacheTime`: cache TTL in ms (10 minutes). -/
def cacheTime : Nat := 10 * 60 * 1000

/-- `lsKey(url)`: the namespaced `localStorage` key `revo_cache_v1::` + url. -/
def lsKey (url : String) : String := "revo_cache_v1::" ++ url

/-- `readLocalCache(url)`: read and parse the durable entry for `url`;
`none` when the slot is empty or the stored string yields no usable entry
(the `catch` / non-object path of the source). -/
def readLocalCache (store : String → Option DurableRaw) (url : String) :
    Option CacheEntry :=
  match store (lsKey url) with
  | none => none
  | some .malformed => none
  | some (.entry d t) => some ⟨d, t⟩

/-- `writeLocalCache(url, data)`: serialize `{data, timestamp: Date.now()}`
into the durable slot; a storage failure (`storeOk = false`) is swallowed
and leaves the store unchanged. -/
def writeLocalCache (store : String → Option DurableRaw) (url : String)
    (data : JsVal) (now : Nat) (storeOk : Bool) :
    String → Option DurableRaw :=
  if storeOk then updateMap store (lsKey url) (.entry data now) else store

/-- The freshness test `now - timestamp < this.cacheTime`, over `Int` as in
JS (a clock that went backwards still counts as fresh). -/
def isFresh (now : Nat) (timestamp : Nat) : Bool :=
  (now : Int) - (timestamp : Int) < (cacheTime : Int)

/-- Step 3–4 of `fetchJson`: the network attempt with write-through on
success and stale-`localStorage` fallback on failure.  `local` is the
value the `local` variable holds at this point in the source. -/
def fetchNet (st : APIState) (url : String) (useCache : Bool) (now : Nat)
    (net : Option JsVal) (storeOk : Bool) (locl : Option CacheEntry) :
    FetchResult :=
  match net with
  | some data =>
      if useCache then
        { ret := some data
          st := { cache := updateMap st.cache url ⟨data, now⟩
                  store := writeLocalCache st.store url data now storeOk }
          netCalled := true }
      else
        { ret := some data, st := st, netCalled := true }
  | none =>
      match locl with
      | some l =>
          if useCache && l.data.truthy then
            { ret := some l.data, st := st, netCalled := true }
          else
            { ret := none, st := st, netCalled := true }
      | none => { ret := none, st := st, netCalled := true }

/-- Step 1 of `fetchJson`: the in-memory entry for `url` if present and
fresh. -/
def memFresh (cache : String → Option CacheEntry) (url : String)
    (now : Nat) : Option CacheEntry :=
  match cache url with
  | some cached => if isFresh now cached.timestamp then some cached else none
  | none => none

/-- `GitHubAPI.fetchJson(url, useCache)`: in-memory cache, then durable
cache (with hydration of the in-memory map on a fresh durable hit), then
network with write-through and stale fallback. -/
def fetchJson (st : APIState) (url : String) (useCache : Bool) (now : Nat)
    (net : Option JsVal) (storeOk : Bool) : FetchResult :=
  match (if useCache then memFresh st.cache url now else none) with
  | some cached => { ret := some cached.data, st := st, netCalled := false }
  | none =>
      let locl : Option CacheEntry :=
        if useCache then readLocalCache st.store url else none
      match locl with
      | some l =>
          if isFresh now l.timestamp then
            { ret := some l.data
              st := { st with cache := updateMap st.cache url l }
              netCalled := false }
          else fetchNet st url useCache now net storeOk locl
      | none => fetchNet st url useCache now net storeOk locl

/-! ### Exception-transparent model of the same control flow

Every throwing primitive of the source is made explicit in `Except`, and
each `try`/`catch` of the source becomes a `match` on the primitive's
outcome, so that proving the top-level function always returns `.ok`
verifies that the handlers cover every throw site. -/

/-- `fetch` + `response.ok` check + `response.json()`: any of the three
failures throws out of the `try` block of `fetchJson`. -/
def fetchE (net : Option JsVal) : Except String JsVal :=
  match net with
  | some d => Except.ok d
  | none => Except.error "API Error"

/-- `JSON.parse` of a stored string inside `readLocalCache`'s `try`
(also covering the explicit non-object `return null`). -/
def parseEntryE : DurableRaw → Except String CacheEntry
  | .malformed => Except.error "SyntaxError"
  | .entry d t => Except.ok ⟨d, t⟩

/-- `readLocalCache` with its internal `try`/`catch` explicit. -/
def readLocalCacheE (store : String → Option DurableRaw) (url : String) :
    Option CacheEntry :=
  match store (lsKey url) with
  | none => none
  | some raw =>
      match parseEntryE raw with
      | .ok e => some e
      | .error _ => none

/-- `localStorage.setItem`: throws when storage is full or blocked. -/
def setItemE (storeOk : Bool) : Except String Unit :=
  if storeOk then Except.ok () else Except.error "QuotaExceededError"

/-- `writeLocalCache` with its internal `try`/`catch` explicit: a
`setItem` throw is swallowed. -/
def writeLocalCacheE (store : String → Option DurableRaw) (url : String)
    (data : JsVal) (now : Nat) (storeOk : Bool) :
    String → Option DurableRaw :=
  match setItemE storeOk with
  | .ok _ => updateMap store (lsKey url) (.entry data now)
  | .error _ => store

/-- Steps 3–4 of `fetchJson` in `Except`: the `try` block runs `fetchE`
and the write-through; its `catch` produces the stale fallback. -/
def fetchNetE (st : APIState) (url : String) (useCache : Bool) (now : Nat)
    (net : Option JsVal) (storeOk : Bool) (locl : Option CacheEntry) :
    Except String FetchResult :=
  match fetchE net with
  | .ok data =>
      if useCache then
        Except.ok
          { ret := some data
            st := { cache := updateMap st.cache url ⟨data, now⟩
                    store := writeLocalCacheE st.store url data now storeOk }
            netCalled := true }
      else
        Except.ok { ret := some data, st := st, netCalled := true }
  | .error _ =>
      match locl with
      | some l =>
          if useCache && l.data.truthy then
            Except.ok { ret := some l.data, st := st, netCalled := true }
          else
            Except.ok { ret := none, st := st, netCalled := true }
      | none => Except.ok { ret := none, st := st, netCalled := true }

/-- `fetchJson` in `Except`: an `.error` result would mean an exception
escaping to the caller. -/
def fetchJsonE (st : APIState) (url : String) (useCache : Bool) (now : Nat)
    (net : Option JsVal) (storeOk : Bool) : Except String FetchResult :=
  match (if useCache then memFresh st.cache url now else none) with
  | some cached =>
      Except.ok { ret := some cached.data, st := st, netCalled := false }
  | none =>
      let locl : Option CacheEntry :=
        if useCache then readLocalCacheE st.store url else none
      match locl with
      | some l =>
          if isFresh now l.timestamp then
            Except.ok
              { ret := some l.data
                st := { st with cache := updateMap st.cache url l }
                netCalled := false }
          else fetchNetE st url useCache now net storeOk locl
      | none => fetchNetE st url useCache now net storeOk locl

/-! ### Troubleshooting page: normalization and filter/search
(`Pages.renderTroubleshooting` in the unnamed page-renderer source file) -/

/-- A label object from the issues payload; `name` may be absent. -/
structure RawLabel where
  name : Option String

/-- The fields of an issue record that the renderer reads; `pull_request`
models the presence of the pull-request marker field. -/
structure RawIssue where
  id : Int
  number : Int
  title : Option String
  body : Option String
  html_url : String
  labels : Option (List RawLabel)
  pull_request : Bool

/-- A normalized troubleshooting record as built per render pass. -/
structure NormalizedFix where
  id : Int
  number : Int
  title : String
  body : String
  html_url : String
  labels : List String
  category : String

/-- JS `String.prototype.toLowerCase`, modelled over the character
list. -/
def toLowerCase (s : String) : String := ⟨s.data.map Char.toLower⟩

/-- `String(l.name || "").toLowerCase()`. -/
def labelName (l : RawLabel) : String := toLowerCase (l.name.getD "")

/-- Category from the lowercase label list: the `let cat = "macro"` /
`if`–`else if` chain of the renderer. -/
def deriveCategory (labels : List String) : String :=
  if labels.contains "windows" then "windows"
  else if labels.contains "macos" || labels.contains "mac" then "macos"
  else if labels.contains "pro" then "pro"
  else if labels.contains "macro" then "macro"
  else "macro"

/-- The `.map` body: one `RawIssue` to one `NormalizedFix`. -/
def normalize (i : RawIssue) : NormalizedFix :=
  let title := i.title.getD ""
  let body := i.body.getD ""
  let labels := (i.labels.getD []).map labelName
  { id := i.id, number := i.number, title := title, body := body
    html_url := i.html_url, labels := labels
    category := deriveCategory labels }

/-- `issues.filter(i => !i.pull_request).map(...)`: the candidate set,
pull requests excluded before categorization. -/
def normalizeAll (issues : List RawIssue) : List NormalizedFix :=
  (issues.filter (fun i => !i.pull_request)).map normalize

/-- JS `String.prototype.includes`: substring test. -/
def strIncludes (s pat : String) : Bool :=
  decide (List.IsInfix pat.toList s.toList)

/-- The inner `matches(item)` predicate of `renderTroubleshooting`, with
the captured `activeCat` and `query` as explicit arguments. -/
def matchesFn (activeCat query : String) (item : NormalizedFix) : Bool :=
  let inCat := if activeCat == "all" then true else item.category == activeCat
  if !inCat then false
  else if query == "" then true
  else
    let q := toLowerCase query
    strIncludes (toLowerCase item.title) q
      || strIncludes (toLowerCase item.body) q
      || item.labels.any (fun l => strIncludes l q)

/-- The filtering step of `renderItems`: `normalized.filter(matches)`. -/
def renderItems (normalized : List NormalizedFix)
    (activeCat query : String) : List NormalizedFix :=
  normalized.filter (matchesFn activeCat query)

/-- Spec-side restatement of the filter predicate (§4.3 of the spec):
category match AND text match as one boolean conjunction, to be compared
with the early-return implementation `matches`. -/
def matchesSpec (category query : String) (item : NormalizedFix) : Bool :=
  (category == "all" || item.category == category)
    && (query == "" || strIncludes (toLowerCase item.title) (toLowerCase query)
        || strIncludes (toLowerCase item.body) (toLowerCase query)
        || item.labels.any (fun l => strIncludes l (toLowerCase query)))

/-! ### Helper lemmas -/

/-- Step 1 hit: a fresh in-memory entry is returned as-is. -/
theorem fetchJson_memHit (st : APIState) (url : String) (now : Nat)
    (net : Option JsVal) (storeOk : Bool) (c : CacheEntry)
    (h : memFresh st.cache url now = some c) :
    fetchJson st url true now net storeOk
      = { ret := some c.data, st := st, netCalled := false } := by
  unfold fetchJson
  simp [h]

/-- Step 2 hit: mem miss but fresh durable entry hydrates and returns. -/
theorem fetchJson_durHit (st : APIState) (url : String) (now : Nat)
    (net : Option JsVal) (storeOk : Bool) (l : CacheEntry)
    (hm : memFresh st.cache url now = none)
    (hr : readLocalCache st.store url = some l)
    (hf : isFresh now l.timestamp = true) :
    fetchJson st url true now net storeOk
      = { ret := some l.data
          st := { cache := updateMap st.cache url l, store := st.store }
          netCalled := false } := by
  unfold fetchJson
  simp [hm, hr, hf]

/-- Both tiers miss (durable stale): the call is the network attempt. -/
theorem fetchJson_missStale (st : APIState) (url : String) (now : Nat)
    (net : Option JsVal) (storeOk : Bool) (l : CacheEntry)
    (hm : memFresh st.cache url now = none)
    (hr : readLocalCache st.store url = some l)
    (hf : isFresh now l.timestamp = false) :
    fetchJson st url true now net storeOk
      = fetchNet st url true now net storeOk (some l) := by
  unfold fetchJson
  simp [hm, hr, hf]

/-- Both tiers miss (durable absent): the call is the network attempt. -/
theorem fetchJson_missNone (st : APIState) (url : String) (now : Nat)
    (net : Option JsVal) (storeOk : Bool)
    (hm : memFresh st.cache url now = none)
    (hr : readLocalCache st.store url = none) :
    fetchJson st url true now net storeOk
      = fetchNet st url true now net storeOk none := by
  unfold fetchJson
  simp [hm, hr]

/-- `fetchNet` always records that a network request was issued. -/
theorem fetchNet_netCalled (st : APIState) (url : String) (useCache : Bool)
    (now : Nat) (net : Option JsVal) (storeOk : Bool)
    (locl : Option CacheEntry) :
    (fetchNet st url useCache now net storeOk locl).netCalled = true := by
  unfold fetchNet
  cases net with
  | some d => by_cases h : useCache = true <;> simp [h]
  | none =>
      cases locl with
      | some l => by_cases h : (useCache && l.data.truthy) = true <;> simp [h]
      | none => rfl

/-- A present-but-stale in-memory entry makes step 1 miss. -/
theorem memFresh_none_stale (cache : String → Option CacheEntry)
    (url : String) (now : Nat) (h : memFresh cache url now = none)
    (c : CacheEntry) (hc : cache url = some c) :
    isFresh now c.timestamp = false := by
  cases hf : isFresh now c.timestamp with
  | false => rfl
  | true =>
      exfalso
      unfold memFresh at h
      rw [hc] at h
      simp [hf] at h

/-- Conversely, a present-and-fresh in-memory entry is a step-1 hit. -/
theorem memFresh_some (cache : String → Option CacheEntry) (url : String)
    (now : Nat) (c : CacheEntry) (hc : cache url = some c)
    (hf : isFresh now c.timestamp = true) :
    memFresh cache url now = some c := by
  unfold memFresh
  simp [hc, hf]

/-- If `fetchJson` with `useCache = true` issued a network request, both
cache tiers missed and the call reduces to `fetchNet` applied to the
durable read. -/
theorem fetchJson_net_path (st : APIState) (url : String) (now : Nat)
    (net : Option JsVal) (storeOk : Bool)
    (h : (fetchJson st url true now net storeOk).netCalled = true) :
    memFresh st.cache url now = none
    ∧ (∀ l, readLocalCache st.store url = some l →
        isFresh now l.timestamp = false)
    ∧ fetchJson st url true now net storeOk
        = fetchNet st url true now net storeOk (readLocalCache st.store url) := by
  cases hm : memFresh st.cache url now with
  | some cached =>
      rw [fetchJson_memHit st url now net storeOk cached hm] at h
      simp at h
  | none =>
      cases hr : readLocalCache st.store url with
      | some l =>
          cases hf : isFresh now l.timestamp with
          | true =>
              rw [fetchJson_durHit st url now net storeOk l hm hr hf] at h
              simp at h
          | false =>
              refine ⟨rfl, fun l' hl' => ?_, ?_⟩
              · cases hl'
                exact hf
              · exact fetchJson_missStale st url now net storeOk l hm hr hf
      | none =>
          refine ⟨rfl, fun l' hl' => ?_, ?_⟩
          · cases hl'
          · exact fetchJson_missNone st url now net storeOk hm hr


/-- `readLocalCacheE` agrees with `readLocalCache`. -/
theorem readLocalCacheE_eq (store : String → Option DurableRaw)
    (url : String) :
    readLocalCacheE store url = readLocalCache store url := by
  unfold readLocalCacheE readLocalCache parseEntryE
  cases store (lsKey url) with
  | none => rfl
  | some raw => cases raw <;> rfl

/-- `writeLocalCacheE` agrees with `writeLocalCache`. -/
theorem writeLocalCacheE_eq (store : String → Option DurableRaw)
    (url : String) (data : JsVal) (now : Nat) (storeOk : Bool) :
    writeLocalCacheE store url data now storeOk
      = writeLocalCache store url data now storeOk := by
  unfold writeLocalCacheE writeLocalCache setItemE
  cases storeOk <;> rfl

/-- `fetchNetE` agrees with `fetchNet`, wrapped in `.ok`. -/
theorem fetchNetE_eq (st : APIState) (url : String) (useCache : Bool)
    (now : Nat) (net : Option JsVal) (storeOk : Bool)
    (locl : Option CacheEntry) :
    fetchNetE st url useCache now net storeOk locl
      = Except.ok (fetchNet st url useCache now net storeOk locl) := by
  cases net with
  | some d => cases useCache <;> cases storeOk <;> rfl
  | none =>
      cases locl with
      | some l =>
          cases useCache <;> cases h : l.data.truthy <;>
            simp [fetchNetE, fetchNet, fetchE, h]
      | none => rfl

/-- Shape of a successful network fetch with caching on. -/
theorem fetchJson_success_shape (st : APIState) (url : String) (now : Nat)
    (d : JsVal) (storeOk : Bool)
    (h : (fetchJson st url true now (some d) storeOk).netCalled = true) :
    fetchJson st url true now (some d) storeOk
      = { ret := some d
          st := { cache := updateMap st.cache url ⟨d, now⟩
                  store := writeLocalCache st.store url d now storeOk }
          netCalled := true } := by
  rw [(fetchJson_net_path st url now (some d) storeOk h).2.2]
  rfl

/-- Updating a key then reading it back. -/
theorem updateMap_self {α : Type} (m : String → Option α) (k : String)
    (v : α) : updateMap m k v k = some v := by
  unfold updateMap
  simp

/-- Updating a key leaves other keys unchanged. -/
theorem updateMap_other {α : Type} (m : String → Option α) (k : String)
    (v : α) (j : String) (h : j ≠ k) : updateMap m k v j = m j := by
  unfold updateMap
  simp [h]

/-- A stale timestamp is at most the current clock value. -/
theorem stale_le_now (now t : Nat) (h : isFresh now t = false) : t ≤ now := by
  simp [isFresh, cacheTime] at h
  omega

/-- A stale timestamp is older than any fresh one (same clock). -/
theorem stale_le_fresh (now t₁ t₂ : Nat) (h₁ : isFresh now t₁ = false)
    (h₂ : isFresh now t₂ = true) : t₁ ≤ t₂ := by
  simp [isFresh, cacheTime] at h₁ h₂
  omega

/-- Successful network fetch with caching on: write-through to both tiers. -/
theorem fetchNet_success (st : APIState) (url : String) (now : Nat)
    (d : JsVal) (storeOk : Bool) (locl : Option CacheEntry) :
    fetchNet st url true now (some d) storeOk locl
      = { ret := some d
          st := { cache := updateMap st.cache url ⟨d, now⟩
                  store := writeLocalCache st.store url d now storeOk }
          netCalled := true } := rfl

/-- A failed network fetch never mutates the state. -/
theorem fetchNet_fail_state (st : APIState) (url : String) (useCache : Bool)
    (now : Nat) (storeOk : Bool) (locl : Option CacheEntry) :
    (fetchNet st url useCache now none storeOk locl).st = st := by
  unfold fetchNet
  cases locl with
  | some l => by_cases h : (useCache && l.data.truthy) = true <;> simp [h]
  | none => rfl

/-- Unfolding of `fetchJson` at `useCache = false`: the result is the
network outcome and the state passes through untouched. -/
theorem fetchJson_false_def (st : APIState) (url : String) (now : Nat)
    (net : Option JsVal) (storeOk : Bool) :
    fetchJson st url false now net storeOk
      = { ret := net, st := st, netCalled := true } := by
  cases net <;> rfl

/-! ### Claim theorems -/

/-- C2: for every url, `useCache` flag, client state, clock value, network
outcome and storage outcome, `fetchJson` returns either a JSON value or
null and never propagates an exception: the exception-transparent model
`fetchJsonE` always returns `.ok` of the total function's result. -/
theorem fetchJson_never_throws (st : APIState) (url : String)
    (useCache : Bool) (now : Nat) (net : Option JsVal) (storeOk : Bool) :
    fetchJsonE st url useCache now net storeOk
      = Except.ok (fetchJson st url useCache now net storeOk) := by
  unfold fetchJsonE fetchJson
  rw [readLocalCacheE_eq]
  cases hm : (if useCache then memFresh st.cache url now else none) with
  | some cached => simp [hm]
  | none =>
      cases hr : (if useCache then readLocalCache st.store url else none) with
      | some l =>
          simp only [hr]
          cases hf : isFresh now l.timestamp <;> simp [hf, fetchNetE_eq]
      | none => simp [hr, fetchNetE_eq]

/-- C10: with `useCache = false`, `fetchJson` never reads either cache
tier and leaves both the in-memory map and the durable store unchanged at
every key, whatever the network outcome: the result is exactly the
network outcome (so on failure it returns null without the stale
fallback), the state passes through untouched, and a network request is
always issued. -/
theorem fetchJson_noCache_frame (st : APIState) (url : String) (now : Nat)
    (net : Option JsVal) (storeOk : Bool) :
    fetchJson st url false now net storeOk
      = { ret := net, st := st, netCalled := true } := by
  cases net <;> rfl

/-- C3: with `useCache = true`: a fresh in-memory entry is returned with
no network call and no state change; otherwise a fresh durable entry is
hydrated into the in-memory map and returned with no network call; only
when both tiers fail to produce a fresh entry is a network request
issued. -/
theorem fetchJson_tier_order (st : APIState) (url : String) (now : Nat)
    (net : Option JsVal) (storeOk : Bool) :
    (∀ c, st.cache url = some c → isFresh now c.timestamp = true →
        fetchJson st url true now net storeOk
          = { ret := some c.data, st := st, netCalled := false })
    ∧ (memFresh st.cache url now = none →
        ∀ l, readLocalCache st.store url = some l →
          isFresh now l.timestamp = true →
          fetchJson st url true now net storeOk
            = { ret := some l.data
                st := { cache := updateMap st.cache url l, store := st.store }
                netCalled := false })
    ∧ (memFresh st.cache url now = none →
        (∀ l, readLocalCache st.store url = some l →
          isFresh now l.timestamp = false) →
        (fetchJson st url true now net storeOk).netCalled = true) := by
  refine ⟨?_, ?_, ?_⟩
  · intro c hc hf
    exact fetchJson_memHit st url now net storeOk c (memFresh_some _ _ _ _ hc hf)
  · intro hm l hr hf
    exact fetchJson_durHit st url now net storeOk l hm hr hf
  · intro hm hstale
    cases hr : readLocalCache st.store url with
    | some l =>
        rw [fetchJson_missStale st url now net storeOk l hm hr (hstale l hr)]
        exact fetchNet_netCalled st url true now net storeOk (some l)
    | none =>
        rw [fetchJson_missNone st url now net storeOk hm hr]
        exact fetchNet_netCalled st url true now net storeOk none

/-- Concrete client state for exercising the three tiers of C3: a fresh
in-memory entry for url `u`, a fresh durable entry for url `v`, nothing
for url `w`. -/
def st3 : APIState :=
  { cache := fun k => if k = "u" then some ⟨.str "m", 100⟩ else none
    store := fun k =>
      if k = lsKey "v" then some (.entry (.str "l") 100) else none }

/-- Witness for C3: at clock 150, url `u` is served from memory, url `v`
is served from the durable tier with hydration, and url `w` goes to the
network. -/
theorem fetchJson_tier_order_w :
    fetchJson st3 "u" true 150 none true
      = { ret := some (JsVal.str "m"), st := st3, netCalled := false }
    ∧ fetchJson st3 "v" true 150 none true
      = { ret := some (JsVal.str "l")
          st := { cache := updateMap st3.cache "v" ⟨JsVal.str "l", 100⟩
                  store := st3.store }
          netCalled := false }
    ∧ (fetchJson st3 "w" true 150 (some JsVal.null) true).netCalled = true := by
  refine ⟨(fetchJson_tier_order st3 "u" 150 none true).1 ⟨JsVal.str "m", 100⟩ rfl rfl,
      (fetchJson_tier_order st3 "v" 150 none true).2.1 rfl ⟨JsVal.str "l", 100⟩ rfl rfl,
      (fetchJson_tier_order st3 "w" 150 (some JsVal.null) true).2.2 rfl ?_⟩
  intro l hl
  rw [show readLocalCache st3.store "w" = none from rfl] at hl
  cases hl

/-- C4: two sequential cached `fetchJson` calls on the same url, where
the first succeeds over the network and the second starts within the
10-minute TTL, perform exactly one network call in total: the second is
served from cache and returns the same data as the first. -/
theorem fetchJson_second_call_cached (st : APIState) (url : String)
    (d : JsVal) (nowOne nowTwo : Nat) (soOne soTwo : Bool)
    (netTwo : Option JsVal) (rOne rTwo : FetchResult)
    (hOne : fetchJson st url true nowOne (some d) soOne = rOne)
    (hnet : rOne.netCalled = true)
    (httl : isFresh nowTwo nowOne = true)
    (hTwo : fetchJson rOne.st url true nowTwo netTwo soTwo = rTwo) :
    rOne.ret = some d ∧ rTwo.netCalled = false ∧ rTwo.ret = rOne.ret := by
  subst hOne
  subst hTwo
  have hshape := fetchJson_success_shape st url nowOne d soOne hnet
  have hc : updateMap st.cache url ⟨d, nowOne⟩ url = some ⟨d, nowOne⟩ :=
    updateMap_self st.cache url ⟨d, nowOne⟩
  have hmem := fetchJson_memHit
    ⟨updateMap st.cache url ⟨d, nowOne⟩,
      writeLocalCache st.store url d nowOne soOne⟩
    url nowTwo netTwo soTwo ⟨d, nowOne⟩ (memFresh_some _ _ _ _ hc httl)
  simp [hshape, hmem]

/-- Empty client state for the C4 witness. -/
def st4 : APIState := { cache := fun _ => none, store := fun _ => none }

/-- Witness for C4: from an empty state, a successful fetch at clock 0
followed by a second fetch at clock 100 serves the second from cache with
the same data. -/
theorem fetchJson_second_call_cached_w :
    (fetchJson st4 "u" true 0 (some (JsVal.str "d")) true).ret
        = some (JsVal.str "d")
    ∧ (fetchJson (fetchJson st4 "u" true 0 (some (JsVal.str "d")) true).st
        "u" true 100 none true).netCalled = false
    ∧ (fetchJson (fetchJson st4 "u" true 0 (some (JsVal.str "d")) true).st
        "u" true 100 none true).ret
        = (fetchJson st4 "u" true 0 (some (JsVal.str "d")) true).ret :=
  fetchJson_second_call_cached st4 "u" (JsVal.str "d") 0 100 true true
    none _ _ rfl rfl rfl rfl

/-- C5: a write-through (a successful cached network fetch) followed by a
read of the same key within the TTL, with no intervening write, returns
exactly the written data: the in-memory map holds the entry directly, the
durable tier round-trips it through `readLocalCache`, and a subsequent
cached `fetchJson` within the TTL returns it. -/
theorem fetchJson_write_round_trip (st : APIState) (url : String)
    (d : JsVal) (nowOne : Nat) (so : Bool) (r : FetchResult)
    (hOne : fetchJson st url true nowOne (some d) so = r)
    (hnet : r.netCalled = true) :
    r.st.cache url = some ⟨d, nowOne⟩
    ∧ (so = true → readLocalCache r.st.store url = some ⟨d, nowOne⟩)
    ∧ ∀ nowTwo netTwo soTwo, isFresh nowTwo nowOne = true →
        (fetchJson r.st url true nowTwo netTwo soTwo).ret = some d := by
  subst hOne
  have hshape := fetchJson_success_shape st url nowOne d so hnet
  rw [hshape]
  refine ⟨updateMap_self st.cache url ⟨d, nowOne⟩, ?_, ?_⟩
  · intro hso
    subst hso
    show readLocalCache (writeLocalCache st.store url d nowOne true) url
        = some ⟨d, nowOne⟩
    simp [readLocalCache, writeLocalCache, updateMap_self]
  · intro nowTwo netTwo soTwo httl
    have hc : updateMap st.cache url ⟨d, nowOne⟩ url = some ⟨d, nowOne⟩ :=
      updateMap_self st.cache url ⟨d, nowOne⟩
    rw [fetchJson_memHit _ url nowTwo netTwo soTwo ⟨d, nowOne⟩
      (memFresh_some _ _ _ _ hc httl)]

/-- Empty client state for the C5 witness. -/
def st5 : APIState := { cache := fun _ => none, store := fun _ => none }

/-- Witness for C5: a successful cached fetch at clock 0 leaves the entry
readable from both tiers and a fetch at clock 5 returns the data. -/
theorem fetchJson_write_round_trip_w :
    (fetchJson st5 "u" true 0 (some (JsVal.str "d")) true).st.cache "u"
        = some ⟨JsVal.str "d", 0⟩
    ∧ readLocalCache
        (fetchJson st5 "u" true 0 (some (JsVal.str "d")) true).st.store "u"
        = some ⟨JsVal.str "d", 0⟩
    ∧ (fetchJson (fetchJson st5 "u" true 0 (some (JsVal.str "d")) true).st
        "u" true 5 none true).ret = some (JsVal.str "d") := by
  obtain ⟨h1, h2, h3⟩ :=
    fetchJson_write_round_trip st5 "u" (JsVal.str "d") 0 true _ rfl rfl
  exact ⟨h1, h2 rfl, h3 5 none true rfl⟩

/-- C9: across any single `fetchJson` operation, the timestamp of the
in-memory cache entry never decreases, for the fetched key and every
other key: hydration from the durable tier only installs a strictly
newer entry over a stale one, and a fresh network write stamps the
current clock, which is past the stale entry's timestamp. -/
theorem cache_timestamp_monotone (st : APIState) (url : String)
    (useCache : Bool) (now : Nat) (net : Option JsVal) (storeOk : Bool)
    (k : String) (c cNew : CacheEntry)
    (hc : st.cache k = some c)
    (hcNew : (fetchJson st url useCache now net storeOk).st.cache k
        = some cNew) :
    c.timestamp ≤ cNew.timestamp := by
  cases useCache with
  | false =>
      rw [fetchJson_false_def] at hcNew
      replace hcNew : st.cache k = some cNew := hcNew
      rw [hc] at hcNew
      cases hcNew
      exact le_refl _
  | true =>
      cases hm : memFresh st.cache url now with
      | some cached =>
          rw [fetchJson_memHit st url now net storeOk cached hm] at hcNew
          replace hcNew : st.cache k = some cNew := hcNew
          rw [hc] at hcNew
          cases hcNew
          exact le_refl _
      | none =>
          cases hr : readLocalCache st.store url with
          | some l =>
              cases hf : isFresh now l.timestamp with
              | true =>
                  rw [fetchJson_durHit st url now net storeOk l hm hr hf]
                    at hcNew
                  replace hcNew : updateMap st.cache url l k = some cNew :=
                    hcNew
                  by_cases hk : k = url
                  · subst hk
                    rw [updateMap_self] at hcNew
                    cases hcNew
                    exact stale_le_fresh now c.timestamp cNew.timestamp
                      (memFresh_none_stale st.cache k now hm c hc) hf
                  · rw [updateMap_other st.cache url l k hk, hc] at hcNew
                    cases hcNew
                    exact le_refl _
              | false =>
                  rw [fetchJson_missStale st url now net storeOk l hm hr hf]
                    at hcNew
                  cases net with
                  | some d =>
                      rw [fetchNet_success] at hcNew
                      replace hcNew :
                          updateMap st.cache url ⟨d, now⟩ k = some cNew :=
                        hcNew
                      by_cases hk : k = url
                      · subst hk
                        rw [updateMap_self] at hcNew
                        cases hcNew
                        exact stale_le_now now c.timestamp
                          (memFresh_none_stale st.cache k now hm c hc)
                      · rw [updateMap_other st.cache url _ k hk, hc] at hcNew
                        cases hcNew
                        exact le_refl _
                  | none =>
                      rw [fetchNet_fail_state] at hcNew
                      rw [hc] at hcNew
                      cases hcNew
                      exact le_refl _
          | none =>
              rw [fetchJson_missNone st url now net storeOk hm hr] at hcNew
              cases net with
              | some d =>
                  rw [fetchNet_success] at hcNew
                  replace hcNew :
                      updateMap st.cache url ⟨d, now⟩ k = some cNew := hcNew
                  by_cases hk : k = url
                  · subst hk
                    rw [updateMap_self] at hcNew
                    cases hcNew
                    exact stale_le_now now c.timestamp
                      (memFresh_none_stale st.cache k now hm c hc)
                  · rw [updateMap_other st.cache url _ k hk, hc] at hcNew
                    cases hcNew
                    exact le_refl _
              | none =>
                  rw [fetchNet_fail_state] at hcNew
                  rw [hc] at hcNew
                  cases hcNew
                  exact le_refl _

/-- Client state for the C9 witness: a stale entry at clock 700000. -/
def st9 : APIState :=
  { cache := fun k => if k = "u" then some ⟨.str "old", 0⟩ else none
    store := fun _ => none }

/-- Witness for C9: a fresh network write at clock 700000 over a stale
entry written at clock 0 does not decrease the in-memory timestamp. -/
theorem cache_timestamp_monotone_w :
    st9.cache "u" = some ⟨JsVal.str "old", 0⟩
    ∧ (fetchJson st9 "u" true 700000 (some (JsVal.str "new")) true).st.cache
        "u" = some ⟨JsVal.str "new", 700000⟩
    ∧ (0 : Nat) ≤ 700000 :=
  ⟨rfl, rfl,
    cache_timestamp_monotone st9 "u" true 700000 (some (JsVal.str "new"))
      true "u" ⟨JsVal.str "old", 0⟩ ⟨JsVal.str "new", 700000⟩ rfl rfl⟩

/-- Client state for the C1 counterexample: a durable entry for url `u`
whose data is JSON `false` (a valid JSON value that is falsy in JS),
written at clock 0. -/
def st1 : APIState :=
  { cache := fun _ => none
    store := fun k =>
      if k = lsKey "u" then some (.entry (.bool false) 0) else none }

/-- C1 counterexample: at clock 700000 the network call for url `u` is
issued and fails while a durable cache entry for `u` exists with data
`false`, yet `fetchJson` returns null (not the entry's data `false`) —
the stale fallback additionally requires the entry's data to be truthy. -/
theorem fetchJson_stale_fallback_cex :
    st1.store (lsKey "u") = some (.entry (.bool false) 0)
    ∧ (fetchJson st1 "u" true 700000 none true).netCalled = true
    ∧ (fetchJson st1 "u" true 700000 none true).ret = none := ⟨rfl, rfl, rfl⟩

/-- C1 (amended): with `useCache = true`, when the network call is issued
and fails, `fetchJson` returns the durable entry's data exactly when a
durable entry exists for the url (fresh or expired) whose data is truthy;
otherwise it returns null. -/
theorem fetchJson_stale_fallback (st : APIState) (url : String) (now : Nat)
    (storeOk : Bool)
    (h : (fetchJson st url true now none storeOk).netCalled = true) :
    (fetchJson st url true now none storeOk).ret
      = match readLocalCache st.store url with
        | some l => if l.data.truthy then some l.data else none
        | none => none := by
  obtain ⟨hm, hstale, heq⟩ := fetchJson_net_path st url now none storeOk h
  rw [heq]
  cases hr : readLocalCache st.store url with
  | some l =>
      unfold fetchNet
      cases ht : l.data.truthy <;> simp [ht]
  | none => rfl

/-- Client state for the C1 witness: a stale durable entry with truthy
data for url `u`. -/
def st1w : APIState :=
  { cache := fun _ => none
    store := fun k =>
      if k = lsKey "u" then some (.entry (.str "x") 0) else none }

/-- Witness for the amended C1: when the network fails, an expired
durable entry with truthy data is returned. -/
theorem fetchJson_stale_fallback_w :
    (fetchJson st1w "u" true 700000 none true).ret = some (JsVal.str "x") :=
  (fetchJson_stale_fallback st1w "u" 700000 true rfl).trans rfl

/-- C6: category derivation from the lowercase label list is
first-match-wins in the fixed priority order windows, then macos-or-mac,
then pro, then macro, defaulting to macro when no label matches; in
particular labels `["pro", "windows"]` categorize as windows. -/
theorem deriveCategory_priority (labels : List String) :
    (labels.contains "windows" = true → deriveCategory labels = "windows")
    ∧ (labels.contains "windows" = false →
        (labels.contains "macos" || labels.contains "mac") = true →
        deriveCategory labels = "macos")
    ∧ (labels.contains "windows" = false →
        (labels.contains "macos" || labels.contains "mac") = false →
        labels.contains "pro" = true →
        deriveCategory labels = "pro")
    ∧ (labels.contains "windows" = false →
        (labels.contains "macos" || labels.contains "mac") = false →
        labels.contains "pro" = false →
        deriveCategory labels = "macro")
    ∧ deriveCategory ["pro", "windows"] = "windows" :=
  ⟨fun h1 => by simp_all [deriveCategory],
   fun h1 h2 => by simp_all [deriveCategory],
   fun h1 h2 h3 => by simp_all [deriveCategory],
   fun h1 h2 h3 => by simp_all [deriveCategory],
   rfl⟩

/-- Witness for C6: one concrete label list per priority tier. -/
theorem deriveCategory_priority_w :
    deriveCategory ["approved", "windows", "pro"] = "windows"
    ∧ deriveCategory ["mac"] = "macos"
    ∧ deriveCategory ["pro", "macro"] = "pro"
    ∧ deriveCategory ["approved"] = "macro" :=
  ⟨(deriveCategory_priority ["approved", "windows", "pro"]).1 rfl,
   (deriveCategory_priority ["mac"]).2.1 rfl rfl,
   (deriveCategory_priority ["pro", "macro"]).2.2.1 rfl rfl rfl,
   (deriveCategory_priority ["approved"]).2.2.2.1 rfl rfl rfl⟩

/-- First example record of the spec: "Crash on login", labels
`windows`/`approved`. -/
def recCrash : RawIssue :=
  { id := 1, number := 1, title := some "Crash on login", body := none
    html_url := "u1"
    labels := some [⟨some "windows"⟩, ⟨some "approved"⟩]
    pull_request := false }

/-- Second example record of the spec: "Mic not detected", label
`macos`. -/
def recMic : RawIssue :=
  { id := 2, number := 2, title := some "Mic not detected", body := none
    html_url := "u2", labels := some [⟨some "macos"⟩]
    pull_request := false }

/-- C7: the filter keeps a record iff the category matches (exact string
equality unless the selected category is `all`) AND the text matches
(empty query, or the lowercased query is a substring of the lowercased
title, the lowercased body, or some label); on the spec's two example
records, category `windows` keeps only the first, and query `mic` with
category `all` keeps only the second. -/
theorem matchesFn_correct :
    (∀ cat q item, matchesFn cat q item = matchesSpec cat q item)
    ∧ renderItems (normalizeAll [recCrash, recMic]) "windows" ""
        = [normalize recCrash]
    ∧ renderItems (normalizeAll [recCrash, recMic]) "all" "mic"
        = [normalize recMic] := by
  refine ⟨?_, rfl, rfl⟩
  intro cat q item
  unfold matchesFn matchesSpec
  cases h1 : (cat == "all") <;> cases h2 : (item.category == cat) <;>
    cases h3 : (q == "") <;> simp [h1, h2, h3]

/-- C8: the filter's output is an order-preserving subsequence of its
input (stable filter, no re-sort), and with empty query and category
`all` it returns all candidate records — the non-pull-request records,
pull requests having been excluded before categorization — in their
original order. -/
theorem renderItems_stable (issues : List RawIssue) (cat q : String) :
    List.Sublist (renderItems (normalizeAll issues) cat q)
      (normalizeAll issues)
    ∧ renderItems (normalizeAll issues) "all" ""
        = (issues.filter (fun i => !i.pull_request)).map normalize := by
  constructor
  · exact List.filter_sublist _
  · calc renderItems (normalizeAll issues) "all" ""
        = normalizeAll issues :=
          List.filter_eq_self.mpr (fun a _ => rfl)
      _ = (issues.filter (fun i => !i.pull_request)).map normalize := rfl

end RevGuide
